import Mathlib

/-!
Verification development for the KAMA-Core backtesting repository
(`strategies_backtest.py`, `strategy_optimizer.py`).

Modelling conventions:
* Python floats are modelled as rationals (`ℚ`); `np.nan` entries of indicator
  arrays are modelled as `none : Option ℚ`.  A comparison against `nan` is
  `False` in numpy, so comparisons on `Option ℚ` return `false` when either
  side is `none`.
* `np.std` takes a square root, which is not rational.  The development is
  parameterised by an abstract square-root function `rsqrt : ℚ → ℚ`; every
  theorem below is proved for every choice of `rsqrt`, hence in particular for
  the true square root.  Concrete evaluations only ever apply `rsqrt` to `0`
  (windows of width one have variance `0`), where any faithful instantiation
  returns `0`.
* `datetime` values are modelled as opaque natural-number timestamps.
* Rational division is total in Lean (`q / 0 = 0`); the only place the Python
  code could divide by zero with the inputs considered here is noted at its
  definition site.
-/

namespace KamaSpec

/-- Candle (свеча) record from `strategies_backtest.py`: time, OHLC prices,
volume. -/
structure Candle where
  time : ℕ
  open' : ℚ
  high : ℚ
  low : ℚ
  close : ℚ
  volume : ℤ
  deriving Repr, DecidableEq

/-- Constructor parameters of `KAMAStrategy.__init__`. -/
structure KParams where
  kama_len : ℕ
  kama_fast : ℕ
  kama_slow : ℕ
  entry_mult : ℚ
  exit_mult : ℚ
  atr_len : ℕ
  atr_sl_mult : ℚ
  atr_phase_len : ℕ
  atr_phase_mult : ℚ
  body_atr_mult : ℚ
  deriving Repr, DecidableEq

/-- Signal action: the `'action'` key of a signal dict is `'BUY'` or `'SELL'`
for every signal `KAMAStrategy.get_signals` emits. -/
inductive Action where
  | BUY
  | SELL
  deriving Repr, DecidableEq

/-- The `'reason'` key of a SELL signal dict: `'SL'`, `'EXIT_FILTER'` or
`'END'`. -/
inductive Reason where
  | SL
  | EXIT_FILTER
  | END
  deriving Repr, DecidableEq

/-- The `'indicators'` sub-dict attached to a BUY signal. -/
structure SigInds where
  kama : ℚ
  kama_delta : ℚ
  atr : Option ℚ
  in_vol_phase : Bool
  deriving Repr, DecidableEq

/-- A signal dict produced by `KAMAStrategy.get_signals`.  Keys that are
absent from a given dict are modelled as `none`. -/
structure Signal where
  action : Action
  price : ℚ
  time : ℕ
  sl : Option ℚ
  reason : Option Reason
  entry_price : Option ℚ
  profit : Option ℚ
  profit_pct : Option ℚ
  inds : Option SigInds
  deriving Repr, DecidableEq

/-- `candles[i].close` (`0` out of range; the loops below only read in-range
indices). -/
def closeAt (candles : List Candle) (i : ℕ) : ℚ :=
  ((candles.get? i).map Candle.close).getD 0

/-- `candles[i].high`. -/
def highAt (candles : List Candle) (i : ℕ) : ℚ :=
  ((candles.get? i).map Candle.high).getD 0

/-- `candles[i].low`. -/
def lowAt (candles : List Candle) (i : ℕ) : ℚ :=
  ((candles.get? i).map Candle.low).getD 0

/-- `candles[i].open`. -/
def openAt (candles : List Candle) (i : ℕ) : ℚ :=
  ((candles.get? i).map Candle.open').getD 0

/-- `candles[i].time`. -/
def timeAt (candles : List Candle) (i : ℕ) : ℕ :=
  ((candles.get? i).map Candle.time).getD 0

/-- `candles[-1].close` (Python negative indexing on a non-empty list). -/
def lastCloseD (candles : List Candle) : ℚ :=
  ((candles.getLast?).map Candle.close).getD 0

/-- `candles[-1].time`. -/
def lastTimeD (candles : List Candle) : ℕ :=
  ((candles.getLast?).map Candle.time).getD 0

/-- `volatility` inside `calculate_kama`:
`np.sum(np.abs(np.diff(prices[i - length:i + 1])))`. -/
def kamaVolatility (prices : ℕ → ℚ) (length i : ℕ) : ℚ :=
  ((List.range length).map
    (fun k => |prices (i - length + k + 1) - prices (i - length + k)|)).sum

/-- The smoothing constant `sc` of `calculate_kama` at index `i`:
`(er * (fast_sc - slow_sc) + slow_sc) ** 2` with
`er = change / volatility if volatility != 0 else 0`. -/
def kamaSC (prices : ℕ → ℚ) (length fast slow i : ℕ) : ℚ :=
  let change : ℚ := |prices i - prices (i - length)|
  let volatility : ℚ := kamaVolatility prices length i
  let er : ℚ := if volatility ≠ 0 then change / volatility else 0
  let fast_sc : ℚ := 2 / ((fast : ℚ) + 1)
  let slow_sc : ℚ := 2 / ((slow : ℚ) + 1)
  (er * (fast_sc - slow_sc) + slow_sc) ^ 2

/-- `calculate_kama`: `kama[:length] = prices[:length]`, then
`kama[i] = sc * prices[i] + (1 - sc) * kama[i - 1]` for `i ≥ length`.
(For `length = 0` the Python assignment at `i = 0` reads `kama[-1]`, which is
still `0` from `np.zeros`; the first branch mirrors that.) -/
def kamaVal (prices : ℕ → ℚ) (length fast slow : ℕ) : ℕ → ℚ
  | 0 =>
      if 0 < length then prices 0
      else kamaSC prices length fast slow 0 * prices 0
  | i + 1 =>
      if i + 1 < length then prices (i + 1)
      else
        kamaSC prices length fast slow (i + 1) * prices (i + 1) +
          (1 - kamaSC prices length fast slow (i + 1)) * kamaVal prices length fast slow i

/-- `tr` array of `calculate_atr`: `tr[0] = high[0] - low[0]`,
`tr[i] = max(high[i] - low[i], |high[i] - close[i-1]|, |low[i] - close[i-1]|)`. -/
def trVal (high low close : ℕ → ℚ) : ℕ → ℚ
  | 0 => high 0 - low 0
  | i + 1 =>
      max (high (i + 1) - low (i + 1))
        (max |high (i + 1) - close i| |low (i + 1) - close i|)

/-- The defined part of the ATR array: `atr[length] = np.mean(tr[1:length+1])`,
then `atr[i] = (atr[i-1] * (length - 1) + tr[i]) / length`. -/
def atrVal (high low close : ℕ → ℚ) (length : ℕ) : ℕ → ℚ
  | 0 => ((List.range length).map (fun j => trVal high low close (j + 1))).sum / (length : ℚ)
  | i + 1 =>
      if i + 1 ≤ length then
        ((List.range length).map (fun j => trVal high low close (j + 1))).sum / (length : ℚ)
      else
        (atrVal high low close length i * ((length : ℚ) - 1) + trVal high low close (i + 1)) /
          (length : ℚ)

/-- `calculate_atr` as an `Option`-valued series: `atr[:length] = np.nan`. -/
def atrOpt (high low close : ℕ → ℚ) (length : ℕ) (i : ℕ) : Option ℚ :=
  if i < length then none else some (atrVal high low close length i)

/-- `kama_delta`: `kama_delta[0] = 0`, `kama_delta[1:] = np.diff(kama)`. -/
def kamaDelta (prices : ℕ → ℚ) (length fast slow : ℕ) : ℕ → ℚ
  | 0 => 0
  | i + 1 => kamaVal prices length fast slow (i + 1) - kamaVal prices length fast slow i

/-- Population mean of a list of rationals (`np.mean`). -/
def listMean (l : List ℚ) : ℚ := l.sum / (l.length : ℚ)

/-- Population variance of a list (`np.std` squared, `ddof = 0`). -/
def listVariance (l : List ℚ) : ℚ :=
  ((l.map (fun x => (x - listMean l) ^ 2)).sum) / (l.length : ℚ)

/-- `atr_sma`: `np.nanmean(atr[i - atr_phase_len:i])` for
`i ≥ atr_phase_len`, `np.nan` before.  `nanmean` averages the non-`nan`
entries of the window and is `nan` when there are none. -/
def atrSma (atr : ℕ → Option ℚ) (phase : ℕ) (i : ℕ) : Option ℚ :=
  if i < phase then none
  else
    let vals := (List.range phase).filterMap (fun k => atr (i - phase + k))
    if vals.isEmpty then none else some (vals.sum / (vals.length : ℚ))

/-- `kama_delta_stdev`: `np.std(kama_delta[i - kama_len:i])` for
`i ≥ kama_len`, `np.nan` before; `np.std` is `rsqrt` of the population
variance of the window. -/
def kamaDeltaStdev (rsqrt : ℚ → ℚ) (delta : ℕ → ℚ) (length : ℕ) (i : ℕ) : Option ℚ :=
  if i < length then none
  else some (rsqrt (listVariance ((List.range length).map (fun k => delta (i - length + k)))))

/-- The indicator bundle returned by `KAMAStrategy.calculate_indicators`,
as per-index series (`Option` = the `nan` entries of the numpy arrays). -/
structure Indicators where
  kama : ℕ → ℚ
  kama_delta : ℕ → ℚ
  atr : ℕ → Option ℚ
  atr_sma : ℕ → Option ℚ
  in_vol_phase : ℕ → Bool
  is_bull_strong : ℕ → Bool
  entry_filter : ℕ → Option ℚ
  exit_filter : ℕ → Option ℚ
  sl_level : ℕ → Option ℚ
  closes : ℕ → ℚ
  highs : ℕ → ℚ
  lows : ℕ → ℚ
  opens : ℕ → ℚ

/-- `KAMAStrategy.calculate_indicators`.  `in_vol_phase = atr > atr_sma *
atr_phase_mult` and `is_bull_strong = (closes > opens) & (body > atr *
body_atr_mult)`; numpy comparisons against `nan` are `false`. -/
def calculateIndicators (p : KParams) (rsqrt : ℚ → ℚ) (candles : List Candle) : Indicators :=
  let closes := closeAt candles
  let highs := highAt candles
  let lows := lowAt candles
  let opens := openAt candles
  let kama := kamaVal closes p.kama_len p.kama_fast p.kama_slow
  let delta := kamaDelta closes p.kama_len p.kama_fast p.kama_slow
  let atr := atrOpt highs lows closes p.atr_len
  let sma := atrSma atr p.atr_phase_len
  let stdev := kamaDeltaStdev rsqrt delta p.kama_len
  { kama := kama
    kama_delta := delta
    atr := atr
    atr_sma := sma
    in_vol_phase := fun i =>
      match atr i, sma i with
      | some a, some s => decide (s * p.atr_phase_mult < a)
      | _, _ => false
    is_bull_strong := fun i =>
      decide (opens i < closes i) &&
        (match atr i with
         | some a => decide (a * p.body_atr_mult < |closes i - opens i|)
         | none => false)
    entry_filter := fun i => (stdev i).map (fun s => p.entry_mult * s)
    exit_filter := fun i => (stdev i).map (fun s => p.exit_mult * s)
    sl_level := fun i => (atr i).map (fun a => closes i - a * p.atr_sl_mult)
    closes := closes
    highs := highs
    lows := lows
    opens := opens }

/-- Loop state of `KAMAStrategy.get_signals`: the accumulated `signals` list
and the local variables `position`, `entry_price`, `sl_level`. -/
structure SigState where
  signals : List Signal
  position : ℕ
  entry_price : ℚ
  sl_level : ℚ
  deriving Repr, DecidableEq

/-- The initial loop state: `signals = []`, `position = 0`,
`entry_price = 0.0`, `sl_level = 0.0`. -/
def initSigState : SigState := ⟨[], 0, 0, 0⟩

/-- The stop level a BUY installs:
`current_sl if not np.isnan(current_sl) else close * 0.98`. -/
def buySL (ind : Indicators) (i : ℕ) : ℚ :=
  match ind.sl_level i with
  | some v => v
  | none => ind.closes i * (98 / 100)

/-- The BUY signal dict appended on entry (lines 246–257 of
`strategies_backtest.py`). -/
def buySignal (ind : Indicators) (candles : List Candle) (i : ℕ) : Signal :=
  { action := .BUY
    price := ind.closes i
    time := timeAt candles i
    sl := some (buySL ind i)
    reason := none
    entry_price := none
    profit := none
    profit_pct := none
    inds := some ⟨ind.kama i, ind.kama_delta i, ind.atr i, ind.in_vol_phase i⟩ }

/-- The SELL signal fired by the stop-loss check (lines 263–271): price is
the stop level, reason `'SL'`. -/
def sellSLSignal (candles : List Candle) (i : ℕ) (st : SigState) : Signal :=
  { action := .SELL
    price := st.sl_level
    time := timeAt candles i
    sl := none
    reason := some .SL
    entry_price := some st.entry_price
    profit := some (st.sl_level - st.entry_price)
    profit_pct := some ((st.sl_level / st.entry_price - 1) * 100)
    inds := none }

/-- The SELL signal fired by the momentum exit filter (lines 277–285): price
is the bar close, reason `'EXIT_FILTER'`. -/
def sellExitSignal (ind : Indicators) (candles : List Candle) (i : ℕ) (st : SigState) : Signal :=
  { action := .SELL
    price := ind.closes i
    time := timeAt candles i
    sl := none
    reason := some .EXIT_FILTER
    entry_price := some st.entry_price
    profit := some (ind.closes i - st.entry_price)
    profit_pct := some ((ind.closes i / st.entry_price - 1) * 100)
    inds := none }

/-- The forced SELL appended when the series ends with an open position
(lines 297–305): price and time of the last candle, reason `'END'`. -/
def endSellSignal (candles : List Candle) (entry : ℚ) : Signal :=
  { action := .SELL
    price := lastCloseD candles
    time := lastTimeD candles
    sl := none
    reason := some .END
    entry_price := some entry
    profit := some (lastCloseD candles - entry)
    profit_pct := some ((lastCloseD candles / entry - 1) * 100)
    inds := none }

/-- The exit-filter condition (line 276):
`not isnan(kama_delta) and not isnan(exit_filter) and kama_delta < 0 and
abs(kama_delta) > exit_filter`.  `kama_delta` is never `nan` here. -/
def exitFilterFires (ind : Indicators) (i : ℕ) : Bool :=
  match ind.exit_filter i with
  | some xf => decide (ind.kama_delta i < 0) && decide (xf < |ind.kama_delta i|)
  | none => false

/-- One iteration of the bar walk in `KAMAStrategy.get_signals`
(lines 226–292), at bar index `i`. -/
def stepBar (ind : Indicators) (candles : List Candle) (i : ℕ) (st : SigState) : SigState :=
  if st.position = 0 then
    match ind.entry_filter i with
    | none => st
    | some ef =>
      if 0 < ind.kama_delta i ∧ ef < ind.kama_delta i ∧
          ind.in_vol_phase i = true ∧ ind.is_bull_strong i = true then
        { signals := st.signals ++ [buySignal ind candles i]
          position := 1
          entry_price := ind.closes i
          sl_level := buySL ind i }
      else st
  else
    if ind.lows i ≤ st.sl_level then
      { signals := st.signals ++ [sellSLSignal candles i st]
        position := 0, entry_price := 0, sl_level := 0 }
    else if exitFilterFires ind i = true then
      { signals := st.signals ++ [sellExitSignal ind candles i st]
        position := 0, entry_price := 0, sl_level := 0 }
    else
      match ind.sl_level i with
      | some v => if st.sl_level < v then { st with sl_level := v } else st
      | none => st

/-- Run `fuel` consecutive bar iterations starting at index `i`. -/
def siggo (ind : Indicators) (candles : List Candle) : ℕ → ℕ → SigState → SigState
  | 0, _, st => st
  | fuel + 1, i, st => siggo ind candles fuel (i + 1) (stepBar ind candles i st)

/-- The bar walk `for i in range(lo, hi)` of `get_signals`. -/
def walk (ind : Indicators) (candles : List Candle) (lo hi : ℕ) (st : SigState) : SigState :=
  siggo ind candles (hi - lo) lo st

/-- The index the walk starts from (line 225):
`max(self.kama_len, self.atr_phase_len)` — note `atr_len` is absent. -/
def loopStart (p : KParams) : ℕ := max p.kama_len p.atr_phase_len

/-- The warm-up length of the input guard (line 215):
`max(self.kama_len, self.atr_len, self.atr_phase_len)`. -/
def warmup (p : KParams) : ℕ := max (max p.kama_len p.atr_len) p.atr_phase_len

/-- The end-of-series force close (lines 295–305): if the walk ends with an
open position (and candles exist) append the `'END'` SELL. -/
def endClose (candles : List Candle) (st : SigState) : List Signal :=
  if 0 < st.position ∧ 0 < candles.length then
    st.signals ++ [endSellSignal candles st.entry_price]
  else st.signals

/-- `KAMAStrategy.get_signals`: guard on the warm-up length, walk the bars,
force-close at the end. -/
def get_signals (p : KParams) (rsqrt : ℚ → ℚ) (candles : List Candle) : List Signal :=
  if candles.length < warmup p + 1 then []
  else
    endClose candles
      (walk (calculateIndicators p rsqrt candles) candles (loopStart p) candles.length
        initSigState)

/-- The `Trade` dataclass of `strategies_backtest.py`. -/
structure TradeRec where
  entry_time : ℕ
  exit_time : Option ℕ
  entry_price : ℚ
  exit_price : Option ℚ
  quantity : ℤ
  direction : String
  profit : Option ℚ
  profit_pct : Option ℚ
  deriving Repr, DecidableEq

/-- Python `int()` applied to a rational: truncation toward zero. -/
def pyInt (q : ℚ) : ℤ := if 0 ≤ q then q.floor else q.ceil

/-- Loop state of `backtest_strategy`: `balance`, `position` (share count),
`entry_price`, the `trades` list and the `equity_curve`. -/
structure BTState where
  balance : ℚ
  position : ℤ
  entry_price : ℚ
  trades : List TradeRec
  equity : List ℚ
  deriving Repr, DecidableEq

/-- The state `backtest_strategy` starts from: `balance = initial_balance`,
no position, `equity_curve = [balance]`. -/
def initBTState (initial : ℚ) : BTState := ⟨initial, 0, 0, [], [initial]⟩

/-- `trades[-1]` update used when a position is closed: Python mutates the
last element in place (`if trades: last_trade...`). -/
def updateLastTrade (ts : List TradeRec) (f : TradeRec → TradeRec) : List TradeRec :=
  match ts.getLast? with
  | none => ts
  | some last => ts.dropLast ++ [f last]

/-- Signal processing of one loop iteration of `backtest_strategy`
(lines 340–384), before the equity-curve append.
Note: `quantity = int(cost / signal['price'])` raises `ZeroDivisionError` in
Python when the BUY price is `0`; rational division is total here
(`q / 0 = 0`), which makes such a BUY a no-op instead. -/
def coreStep (commission : ℚ) (usePct : Bool) (pct : ℚ) (s : Signal) (st : BTState) : BTState :=
  match s.action with
  | .BUY =>
    if st.position = 0 then
      let quantity : ℤ :=
        if usePct then pyInt (st.balance * (pct / 100) / s.price) else 1
      if 0 < quantity then
        let total_cost : ℚ := (quantity : ℚ) * s.price
        let commission_cost : ℚ := total_cost * (commission / 100)
        if total_cost + commission_cost ≤ st.balance then
          { st with
            balance := st.balance - (total_cost + commission_cost)
            position := quantity
            entry_price := s.price
            trades := st.trades ++
              [{ entry_time := s.time, exit_time := none, entry_price := s.price,
                 exit_price := none, quantity := quantity, direction := "LONG",
                 profit := none, profit_pct := none }] }
        else st
      else st
    else st
  | .SELL =>
    if 0 < st.position then
      let revenue : ℚ := (st.position : ℚ) * s.price
      let commission_cost : ℚ := revenue * (commission / 100)
      let profit : ℚ := revenue - commission_cost - (st.position : ℚ) * st.entry_price -
        (st.position : ℚ) * st.entry_price * commission / 100
      let profit_pct : ℚ := profit / ((st.position : ℚ) * st.entry_price) * 100
      { st with
        balance := st.balance + (revenue - commission_cost)
        position := 0
        entry_price := 0
        trades := updateLastTrade st.trades (fun t =>
          { t with exit_time := some s.time, exit_price := some s.price,
                   profit := some profit, profit_pct := some profit_pct }) }
    else st

/-- The mark-to-market equity value appended after each signal
(lines 386–393): cash balance, plus `position * candles[-1].close` when a
position is open and candles exist. -/
def equityOf (candles : List Candle) (st : BTState) : ℚ :=
  if 0 < st.position ∧ 0 < candles.length then
    st.balance + (st.position : ℚ) * lastCloseD candles
  else st.balance

/-- Append the equity point for the current state. -/
def pushEquity (candles : List Candle) (st : BTState) : BTState :=
  { st with equity := st.equity ++ [equityOf candles st] }

/-- One full loop iteration of `backtest_strategy`: process the signal, then
append the equity point. -/
def btStep (candles : List Candle) (commission : ℚ) (usePct : Bool) (pct : ℚ)
    (s : Signal) (st : BTState) : BTState :=
  pushEquity candles (coreStep commission usePct pct s st)

/-- The signal loop of `backtest_strategy`. -/
def btRun (candles : List Candle) (commission : ℚ) (usePct : Bool) (pct : ℚ)
    (signals : List Signal) (st : BTState) : BTState :=
  signals.foldl (fun st s => btStep candles commission usePct pct s st) st

/-- The close-out after the loop (lines 396–410): if a position is still open
and candles exist, sell it at `candles[-1].close` (no equity point is
appended here). -/
def forceClose (candles : List Candle) (commission : ℚ) (st : BTState) : BTState :=
  if 0 < st.position ∧ 0 < candles.length then
    let last_price : ℚ := lastCloseD candles
    let revenue : ℚ := (st.position : ℚ) * last_price
    let commission_cost : ℚ := revenue * (commission / 100)
    let profit : ℚ := revenue - commission_cost - (st.position : ℚ) * st.entry_price -
      (st.position : ℚ) * st.entry_price * commission / 100
    let profit_pct : ℚ := profit / ((st.position : ℚ) * st.entry_price) * 100
    { st with
      balance := st.balance + (revenue - commission_cost)
      trades := updateLastTrade st.trades (fun t =>
        { t with exit_time := some (lastTimeD candles), exit_price := some last_price,
                 profit := some profit, profit_pct := some profit_pct }) }
  else st

/-- Python truthiness of an optional float: `None` and `0.0` are falsy. -/
def qTruthy : Option ℚ → Bool
  | none => false
  | some x => decide (x ≠ 0)

/-- The winning-trade filter (line 414): `t.profit and t.profit > 0`. -/
def isWinningTrade (t : TradeRec) : Bool :=
  qTruthy t.profit && decide (0 < t.profit.getD 0)

/-- The losing-trade filter (line 415): `t.profit and t.profit <= 0`.
Because `0.0` is falsy in Python, a trade whose profit is exactly `0`
satisfies neither this filter nor the winning one. -/
def isLosingTrade (t : TradeRec) : Bool :=
  qTruthy t.profit && decide (t.profit.getD 0 ≤ 0)

/-- `np.maximum.accumulate` tail: running maxima continuing from `m`. -/
def runMaxFrom (m : ℚ) : List ℚ → List ℚ
  | [] => []
  | x :: xs => max m x :: runMaxFrom (max m x) xs

/-- `np.maximum.accumulate` over a list. -/
def runningMax : List ℚ → List ℚ
  | [] => []
  | x :: xs => x :: runMaxFrom x xs

/-- `np.min` of a list (`0` for the empty list, which cannot arise here:
the equity curve always contains the initial balance). -/
def listMin : List ℚ → ℚ
  | [] => 0
  | x :: xs => xs.foldl min x

/-- The drawdown series (lines 421–423):
`(equity - running_max) / running_max * 100`. -/
def drawdownSeries (equity : List ℚ) : List ℚ :=
  List.zipWith (fun e m => (e - m) / m * 100) equity (runningMax equity)

/-- Per-step percent returns (line 429): `np.diff(equity) / equity[:-1] * 100`. -/
def returnsSeries (equity : List ℚ) : List ℚ :=
  List.zipWith (fun next prev => (next - prev) / prev * 100) equity.tail equity

/-- The simplified Sharpe ratio (lines 428–432): mean over `rsqrt`-standard
deviation of the per-step returns when that deviation is positive, else `0`. -/
def sharpeOf (rsqrt : ℚ → ℚ) (equity : List ℚ) : ℚ :=
  if 1 < equity.length then
    let returns := returnsSeries equity
    let sd := rsqrt (listVariance returns)
    if 0 < sd then listMean returns / sd else 0
  else 0

/-- The `BacktestResult` dataclass. -/
structure BacktestResult where
  total_trades : ℕ
  winning_trades : ℕ
  losing_trades : ℕ
  total_profit : ℚ
  total_profit_pct : ℚ
  max_drawdown : ℚ
  max_drawdown_pct : ℚ
  sharpe_ratio : ℚ
  trades : List TradeRec
  equity_curve : List ℚ
  final_balance : ℚ
  deriving Repr, DecidableEq

/-- Assemble the `BacktestResult` from the final state (lines 412–446). -/
def btStats (rsqrt : ℚ → ℚ) (initial : ℚ) (st : BTState) : BacktestResult :=
  let completed := st.trades.filter (fun t => t.exit_time ≠ none)
  let winning := completed.filter isWinningTrade
  let losing := completed.filter isLosingTrade
  let max_drawdown_pct := listMin (drawdownSeries st.equity)
  { total_trades := completed.length
    winning_trades := winning.length
    losing_trades := losing.length
    total_profit := st.balance - initial
    total_profit_pct := (st.balance / initial - 1) * 100
    max_drawdown := initial * (max_drawdown_pct / 100)
    max_drawdown_pct := max_drawdown_pct
    sharpe_ratio := sharpeOf rsqrt st.equity
    trades := completed
    equity_curve := st.equity
    final_balance := st.balance }

/-- `backtest_strategy`: run the strategy's signals through the simulator. -/
def backtest_strategy (candles : List Candle) (p : KParams) (rsqrt : ℚ → ℚ)
    (initial commission : ℚ) (usePct : Bool) (pct : ℚ) : BacktestResult :=
  let signals := get_signals p rsqrt candles
  btStats rsqrt initial
    (forceClose candles commission
      (btRun candles commission usePct pct signals (initBTState initial)))

/-- `StrategyOptimizer.calculate_fitness` (`strategy_optimizer.py`,
lines 55–95), with the weights as explicit arguments. -/
def calculate_fitness (r : BacktestResult) (weight_profit weight_sharpe weight_winrate
    penalty_drawdown : ℚ) : ℚ :=
  let profit_score : ℚ := if 0 < r.total_profit_pct then r.total_profit_pct / 100 else 0
  let sharpe_score : ℚ := max 0 r.sharpe_ratio / 3
  let winrate : ℚ :=
    if 0 < r.total_trades then (r.winning_trades : ℚ) / (r.total_trades : ℚ) else 0
  let drawdown_penalty : ℚ := |r.max_drawdown_pct| / 100
  let fitness : ℚ :=
    weight_profit * profit_score + weight_sharpe * sharpe_score + weight_winrate * winrate -
      penalty_drawdown * drawdown_penalty
  if r.total_trades < 10 then fitness * (1 / 2) else fitness

/-- `calculate_fitness` at the default weights
(`1.0`, `0.5`, `0.3`, `0.5`). -/
def fitnessDefault (r : BacktestResult) : ℚ :=
  calculate_fitness r 1 (1 / 2) (3 / 10) (1 / 2)

/-- The best-candidate update shared by both optimizers: a candidate whose
evaluation raises (`run p = none`) is skipped — equivalently scored below
every real fitness — and the best is replaced only on strictly higher
fitness (`if fitness > best_fitness`), `best_fitness` starting at `-inf`
(`none`). -/
def optStep {P : Type} (run : P → Option ℚ) (best : Option (P × ℚ)) (p : P) :
    Option (P × ℚ) :=
  match run p with
  | none => best
  | some f =>
    match best with
    | none => some (p, f)
    | some (bp, bf) => if bf < f then some (p, f) else some (bp, bf)

/-- The candidate loop of `StrategyOptimizer.optimize_grid_search`
(lines 153–177): iterate over at most `max_iterations` combinations
(`if i >= max_iterations: break`), evaluating each in a `try/except`. -/
def gridBest {P : Type} (run : P → Option ℚ) (combos : List P) (maxIter : ℕ) :
    Option (P × ℚ) :=
  (combos.take maxIter).foldl (optStep run) none

/-- `optimize_grid_search` outcome: `ValueError` (modelled `Except.error ()`)
when no candidate produced a result, otherwise the best parameters and
fitness.  `combos` stands for the `combinations` list (built from the ranges,
or drawn at random when the product exceeds the cap) and
`run` for `KAMAStrategy(**params) → backtest_strategy → calculate_fitness`
with `none` when that evaluation raises. -/
def optimizeGridSearch {P : Type} (run : P → Option ℚ) (combos : List P) (maxIter : ℕ) :
    Except Unit (P × ℚ) :=
  match gridBest run combos maxIter with
  | none => .error ()
  | some b => .ok b

/-- The evaluation loop of `StrategyOptimizer.optimize_genetic`
(lines 250–276): each generation's population is evaluated in order, a
failing individual is scored `float('-inf')`, and the best-ever individual
is kept across all generations.  `gens` is the list of populations actually
evaluated (their evolution is randomized and taken as given). -/
def geneticBest {P : Type} (run : P → Option ℚ) (gens : List (List P)) : Option (P × ℚ) :=
  gens.flatten.foldl (optStep run) none

/-- `optimize_genetic` outcome: `ValueError` when no individual in any
generation produced a result, otherwise the best individual and fitness. -/
def optimizeGenetic {P : Type} (run : P → Option ℚ) (gens : List (List P)) :
    Except Unit (P × ℚ) :=
  match geneticBest run gens with
  | none => .error ()
  | some b => .ok b

/-- The `OptimizedParams` dataclass of `strategy_optimizer.py`. -/
structure OptimizedParams where
  kama_len : ℤ
  kama_fast : ℤ
  kama_slow : ℤ
  entry_mult : ℚ
  exit_mult : ℚ
  atr_len : ℤ
  atr_sl_mult : ℚ
  atr_phase_len : ℤ
  atr_phase_mult : ℚ
  body_atr_mult : ℚ
  fitness_score : ℚ
  total_profit_pct : ℚ
  sharpe_ratio : ℚ
  max_drawdown_pct : ℚ
  win_rate : ℚ
  total_trades : ℤ
  deriving Repr, DecidableEq

/-- The persistent fields of an `AdaptiveStrategy` instance.
`last_retrain_date` is an opaque timestamp: `datetime.isoformat` /
`datetime.fromisoformat` round-trip a `datetime` exactly, so serialising the
date is modelled as the identity on the timestamp. -/
structure AdaptiveStrategyRec where
  figi : String
  optimized_params : OptimizedParams
  retrain_period_days : ℤ
  last_retrain_date : ℕ
  pinescript_code : Option String
  name : Option String
  deriving Repr, DecidableEq

/-- The dictionary produced by `AdaptiveStrategy.to_dict`; `Option` fields
model keys that may be absent, `retrain_period_days` is read back with
`data.get(..., 30)`. -/
structure StratDict where
  figi : String
  params : OptimizedParams
  last_retrain_date : ℕ
  retrain_period_days : Option ℤ
  pinescript_code : Option String
  name : Option String
  deriving Repr, DecidableEq

/-- Python truthiness of an optional string: `None` and `''` are falsy. -/
def strTruthy : Option String → Bool
  | none => false
  | some s => !(s == "")

/-- `AdaptiveStrategy.to_dict` (lines 379–391): the `pinescript_code` and
`name` keys are written only `if self.pinescript_code:` / `if self.name:`,
so an empty string is dropped. -/
def to_dict (r : AdaptiveStrategyRec) : StratDict :=
  { figi := r.figi
    params := r.optimized_params
    last_retrain_date := r.last_retrain_date
    retrain_period_days := some r.retrain_period_days
    pinescript_code := if strTruthy r.pinescript_code then r.pinescript_code else none
    name := if strTruthy r.name then r.name else none }

/-- `AdaptiveStrategy.from_dict` (lines 393–405): rebuild the record, with
`data.get` defaults for the optional keys, then overwrite
`last_retrain_date` with the parsed stored instant. -/
def from_dict (d : StratDict) : AdaptiveStrategyRec :=
  { figi := d.figi
    optimized_params := d.params
    retrain_period_days := d.retrain_period_days.getD 30
    last_retrain_date := d.last_retrain_date
    pinescript_code := d.pinescript_code
    name := d.name }

/-! ### Concrete fixtures used by witnesses and counterexamples -/

/-- An `rsqrt` instantiation for concrete runs; it is only ever evaluated at
variance `0` in the fixtures below, where the true square root is also `0`. -/
def rsqrt0 : ℚ → ℚ := fun _ => 0

/-- Strategy parameters with all warm-up windows of length `1`. -/
def pOne : KParams := ⟨1, 2, 20, 1, 1, 1, 1, 1, 1, (1 : ℚ) / 2⟩

/-- Three candles on which `pOne` fires a BUY at bar 2 (close 15) that is
force-closed at the same last close, yielding a trade of profit exactly 0. -/
def candles3 : List Candle :=
  [⟨0, 10, 11, 9, 10, 0⟩, ⟨1, 10, 12, 10, 11, 0⟩, ⟨2, 11, 16, 11, 15, 0⟩]

/-- Parameters whose `atr_len` strictly exceeds the other two windows. -/
def pGap : KParams := ⟨1, 2, 20, 1, 1, 5, 1, 1, 1, (1 : ℚ) / 2⟩

/-! ### C8 : short input returns an empty signal list -/

/-- C8: for every candle list shorter than
`max(kama_len, atr_len, atr_phase_len) + 1` bars, `get_signals` returns
the empty list (the guard at line 215 of `strategies_backtest.py`). -/
theorem get_signals_short_input_empty (p : KParams) (rsqrt : ℚ → ℚ)
    (candles : List Candle) (h : candles.length < warmup p + 1) :
    get_signals p rsqrt candles = [] := by
  simp [get_signals, h]

/-- C8 witness: a one-candle list is below the `pOne` warm-up requirement and
produces no signals. -/
theorem get_signals_short_input_empty_witness :
    [(⟨0, 10, 11, 9, 10, 0⟩ : Candle)].length < warmup pOne + 1 ∧
      get_signals pOne rsqrt0 [⟨0, 10, 11, 9, 10, 0⟩] = [] :=
  ⟨by decide, get_signals_short_input_empty pOne rsqrt0 [⟨0, 10, 11, 9, 10, 0⟩] (by decide)⟩

/-! ### C4 : strategy-record serialisation round-trip -/

/-- A concrete `OptimizedParams` value. -/
def opEx : OptimizedParams :=
  ⟨21, 2, 20, 8 / 5, 4 / 5, 14, 11 / 5, 50, 1, 1 / 2, 3 / 2, 12, 1, -7, 55, 42⟩

/-- A record whose source snippet is the empty string. -/
def recEmptySnippet : AdaptiveStrategyRec :=
  ⟨"BBG004730N88", opEx, 30, 1700000000, some "", none⟩

/-- A record whose optional fields avoid the empty string. -/
def recGood : AdaptiveStrategyRec :=
  ⟨"BBG004730N88", opEx, 30, 1700000000, some "kama core", none⟩

/-- C4 counterexample: a valid record holding an empty-string source snippet
does not survive the round-trip — `to_dict` drops the falsy string and
`from_dict` restores `None`. -/
theorem from_dict_to_dict_not_injective :
    from_dict (to_dict recEmptySnippet) ≠ recEmptySnippet := by
  intro h
  have h2 := congrArg AdaptiveStrategyRec.pinescript_code h
  simp [recEmptySnippet, to_dict, from_dict, strTruthy] at h2

/-- An optional string that is kept verbatim by the truthiness test of
`to_dict`. -/
theorem strTruthy_ite_self (o : Option String) (h : o ≠ some "") :
    (if strTruthy o then o else none) = o := by
  cases o with
  | none => simp [strTruthy]
  | some s =>
    have hs : (s == "") = false := beq_eq_false_iff_ne.mpr (fun he => h (by rw [he]))
    simp [strTruthy, hs]

/-- C4 (amended): `from_dict (to_dict r)` reconstructs `r` in every field —
identical `OptimizedParams`, exact timestamp, retrain interval and the
optional fields — provided neither optional field holds the empty string. -/
theorem from_dict_to_dict_roundtrip (r : AdaptiveStrategyRec)
    (hp : r.pinescript_code ≠ some "") (hn : r.name ≠ some "") :
    from_dict (to_dict r) = r := by
  obtain ⟨figi, params, days, date, code, nm⟩ := r
  simp only [to_dict, from_dict, Option.getD_some,
    strTruthy_ite_self code hp, strTruthy_ite_self nm hn]

/-- C4 witness: the round-trip is the identity on a concrete record with a
non-empty snippet. -/
theorem from_dict_to_dict_roundtrip_witness :
    recGood.pinescript_code ≠ some "" ∧ recGood.name ≠ some "" ∧
      from_dict (to_dict recGood) = recGood :=
  ⟨by decide, by decide,
    from_dict_to_dict_roundtrip recGood (by decide) (by decide)⟩

/-! ### C5 : optimizer per-candidate error handling -/

/-- `optStep` yields `none` exactly when it started from `none` and the new
candidate's evaluation failed. -/
theorem optStep_eq_none_iff {P : Type} (run : P → Option ℚ) (best : Option (P × ℚ)) (p : P) :
    optStep run best p = none ↔ best = none ∧ run p = none := by
  cases hr : run p with
  | none => cases best <;> simp [optStep, hr]
  | some f =>
    rcases best with _ | ⟨bp, bf⟩
    · simp [optStep, hr]
    · simp only [optStep, hr]
      constructor
      · intro h
        split at h <;> exact Option.noConfusion h
      · rintro ⟨h, -⟩
        exact Option.noConfusion h

/-- Folding `optStep` returns `none` iff it started from `none` and every
candidate's evaluation failed. -/
theorem foldl_optStep_eq_none {P : Type} (run : P → Option ℚ) (l : List P)
    (acc : Option (P × ℚ)) :
    l.foldl (optStep run) acc = none ↔ acc = none ∧ ∀ p ∈ l, run p = none := by
  induction l generalizing acc with
  | nil => simp
  | cons x xs ih =>
    rw [List.foldl_cons, ih, optStep_eq_none_iff]
    constructor
    · rintro ⟨⟨h1, h2⟩, h3⟩
      refine ⟨h1, fun q hq => ?_⟩
      rcases List.mem_cons.mp hq with rfl | hq'
      · exact h2
      · exact h3 q hq'
    · rintro ⟨h1, h2⟩
      exact ⟨⟨h1, h2 x (List.mem_cons_self x xs)⟩,
        fun q hq => h2 q (List.mem_cons_of_mem x hq)⟩

/-- A `some` result of folding `optStep` is either the unchanged accumulator
or a candidate from the list together with its own (successful) fitness. -/
theorem foldl_optStep_eq_some {P : Type} (run : P → Option ℚ) (l : List P)
    (acc : Option (P × ℚ)) (p : P) (f : ℚ)
    (h : l.foldl (optStep run) acc = some (p, f)) :
    acc = some (p, f) ∨ (p ∈ l ∧ run p = some f) := by
  induction l generalizing acc with
  | nil => exact Or.inl h
  | cons x xs ih =>
    rw [List.foldl_cons] at h
    rcases ih _ h with hx | ⟨hmem, hrun⟩
    · rcases acc with _ | ⟨bp, bf⟩
      · cases hr : run x with
        | none =>
          simp only [optStep, hr] at hx
          exact Option.noConfusion hx
        | some fx =>
          simp only [optStep, hr] at hx
          obtain ⟨h1, h2⟩ := Prod.mk.inj (Option.some.inj hx)
          subst h1
          subst h2
          exact Or.inr ⟨List.mem_cons_self x xs, hr⟩
      · cases hr : run x with
        | none =>
          simp only [optStep, hr] at hx
          exact Or.inl hx
        | some fx =>
          simp only [optStep, hr] at hx
          split at hx
          · obtain ⟨h1, h2⟩ := Prod.mk.inj (Option.some.inj hx)
            subst h1
            subst h2
            exact Or.inr ⟨List.mem_cons_self x xs, hr⟩
          · exact Or.inl hx
    · exact Or.inr ⟨List.mem_cons_of_mem x hmem, hrun⟩

/-- C5: in both `optimize_grid_search` and `optimize_genetic` a candidate
whose evaluation raises is skipped without aborting; the optimizer errors out
iff every evaluated candidate failed (returning nothing in that case), and a
returned best parameter set is always an evaluated candidate together with
its successfully computed fitness. -/
theorem optimizer_error_handling {P : Type} (run : P → Option ℚ) (combos : List P)
    (maxIter : ℕ) (gens : List (List P)) :
    (optimizeGridSearch run combos maxIter = .error () ↔
      ∀ p ∈ combos.take maxIter, run p = none)
    ∧ (∀ p f, optimizeGridSearch run combos maxIter = .ok (p, f) →
        p ∈ combos.take maxIter ∧ run p = some f)
    ∧ (optimizeGenetic run gens = .error () ↔ ∀ p ∈ gens.flatten, run p = none)
    ∧ (∀ p f, optimizeGenetic run gens = .ok (p, f) →
        p ∈ gens.flatten ∧ run p = some f) := by
  refine ⟨?_, ?_, ?_, ?_⟩
  · unfold optimizeGridSearch
    cases hg : gridBest run combos maxIter with
    | none =>
      simp only [true_iff]
      exact ((foldl_optStep_eq_none run _ none).mp hg).2
    | some b =>
      simp only [reduceCtorEq, false_iff]
      intro hall
      have : gridBest run combos maxIter = none :=
        (foldl_optStep_eq_none run _ none).mpr ⟨rfl, hall⟩
      rw [hg] at this
      exact Option.noConfusion this
  · intro p f h
    unfold optimizeGridSearch at h
    cases hg : gridBest run combos maxIter with
    | none => rw [hg] at h; exact Except.noConfusion h
    | some b =>
      rw [hg] at h
      obtain rfl : b = (p, f) := Except.ok.inj h
      rcases foldl_optStep_eq_some run _ none p f hg with h' | h'
      · exact Option.noConfusion h'
      · exact h'
  · unfold optimizeGenetic
    cases hg : geneticBest run gens with
    | none =>
      simp only [true_iff]
      exact ((foldl_optStep_eq_none run _ none).mp hg).2
    | some b =>
      simp only [reduceCtorEq, false_iff]
      intro hall
      have : geneticBest run gens = none :=
        (foldl_optStep_eq_none run _ none).mpr ⟨rfl, hall⟩
      rw [hg] at this
      exact Option.noConfusion this
  · intro p f h
    unfold optimizeGenetic at h
    cases hg : geneticBest run gens with
    | none => rw [hg] at h; exact Except.noConfusion h
    | some b =>
      rw [hg] at h
      obtain rfl : b = (p, f) := Except.ok.inj h
      rcases foldl_optStep_eq_some run _ none p f hg with h' | h'
      · exact Option.noConfusion h'
      · exact h'

/-- A two-candidate evaluation in which candidate `0` raises and candidate
`1` scores fitness `1`. -/
def runEx : ℕ → Option ℚ := fun n => if n = 0 then none else some 1

/-- C5 witness: with one failing and one succeeding candidate, grid search
returns the succeeding one; with only the failing candidate, the genetic
optimizer raises. -/
theorem optimizer_error_handling_witness :
    optimizeGridSearch runEx [0, 1] 5 = .ok (1, 1) ∧
      (1 ∈ [0, 1].take 5 ∧ runEx 1 = some 1) ∧
      optimizeGenetic runEx [[0]] = .error () :=
  ⟨rfl, (optimizer_error_handling runEx [0, 1] 5 [[0]]).2.1 1 1 rfl,
    (optimizer_error_handling runEx [0, 1] 5 [[0]]).2.2.1.mpr (by decide)⟩

/-! ### C7 : fitness monotonicity -/

/-- C7: with the default weights, `calculate_fitness` is monotonically
non-decreasing in `total_profit_pct` (all other fields fixed) and strictly
decreasing in the magnitude of `max_drawdown_pct` (all other fields fixed). -/
theorem fitness_monotone (r : BacktestResult) (q d : ℚ) :
    (r.total_profit_pct ≤ q →
      fitnessDefault r ≤ fitnessDefault { r with total_profit_pct := q })
    ∧ (|r.max_drawdown_pct| < |d| →
      fitnessDefault { r with max_drawdown_pct := d } < fitnessDefault r) := by
  obtain ⟨tt, wt, ls, tp, tpp, md, mdp, sr, tl, ec, fb⟩ := r
  constructor
  · intro hle
    simp only [fitnessDefault, calculate_fitness]
    split_ifs <;> linarith
  · intro hlt
    simp only [fitnessDefault, calculate_fitness]
    have hdd : |mdp| / 100 < |d| / 100 := by linarith
    split_ifs <;> linarith

/-- A concrete simulation summary for the fitness witness. -/
def resEx : BacktestResult := ⟨20, 5, 15, 0, 50, 0, -10, 1, [], [], 0⟩

/-- C7 witness: raising profit from 50 to 60 does not lower the default
fitness of `resEx`, and deepening the drawdown from −10 to −20 strictly
lowers it. -/
theorem fitness_monotone_witness :
    fitnessDefault resEx ≤ fitnessDefault { resEx with total_profit_pct := 60 } ∧
      fitnessDefault { resEx with max_drawdown_pct := -20 } < fitnessDefault resEx :=
  ⟨(fitness_monotone resEx 60 (-20)).1 (by norm_num [resEx]),
    (fitness_monotone resEx 60 (-20)).2 (by norm_num [resEx])⟩

/-! ### C1 : signals strictly alternate BUY, SELL, BUY, … -/

/-- The action a strictly alternating signal list must carry at index `i`:
BUY at even indices (so the first signal is a BUY), SELL at odd ones. -/
def altAction (i : ℕ) : Action := if i % 2 = 0 then .BUY else .SELL

/-- A signal list alternates BUY, SELL, BUY, … from its first element. -/
def IsAltSignals (l : List Signal) : Prop :=
  ∀ i (h : i < l.length), (l.get ⟨i, h⟩).action = altAction i

/-- The empty list alternates. -/
theorem isAltSignals_nil : IsAltSignals [] := fun i h => absurd h (Nat.not_lt_zero i)

/-- Appending a signal with the next expected action preserves alternation. -/
theorem isAltSignals_append (l : List Signal) (s : Signal) (hl : IsAltSignals l)
    (hs : s.action = altAction l.length) : IsAltSignals (l ++ [s]) := by
  intro i hi
  simp only [List.length_append, List.length_singleton] at hi
  rcases Nat.lt_or_ge i l.length with h | h
  · rw [List.get_append i h]
    exact hl i h
  · have he : i = l.length := by omega
    subst he
    simpa [List.get_eq_getElem, List.getElem_concat_length] using hs

/-- One bar step preserves alternation together with the parity coupling
between the position flag and the number of emitted signals. -/
theorem stepBar_alt (ind : Indicators) (candles : List Candle) (i : ℕ) (st : SigState)
    (ha : IsAltSignals st.signals) (hp : st.position = st.signals.length % 2) :
    IsAltSignals (stepBar ind candles i st).signals ∧
      (stepBar ind candles i st).position = (stepBar ind candles i st).signals.length % 2 := by
  unfold stepBar
  by_cases h0 : st.position = 0
  · have hlen : st.signals.length % 2 = 0 := by omega
    rw [if_pos h0]
    cases hef : ind.entry_filter i with
    | none => exact ⟨ha, hp⟩
    | some ef =>
      dsimp only
      split_ifs with hcond
      · refine ⟨isAltSignals_append _ _ ha (by simp [buySignal, altAction, hlen]), ?_⟩
        simp only [List.length_append, List.length_singleton]
        omega
      · exact ⟨ha, hp⟩
  · have hlen : st.signals.length % 2 = 1 := by omega
    rw [if_neg h0]
    split_ifs with h1 h2
    · refine ⟨isAltSignals_append _ _ ha (by simp [sellSLSignal, altAction, hlen]), ?_⟩
      simp only [List.length_append, List.length_singleton]
      omega
    · refine ⟨isAltSignals_append _ _ ha (by simp [sellExitSignal, altAction, hlen]), ?_⟩
      simp only [List.length_append, List.length_singleton]
      omega
    · cases ind.sl_level i with
      | none => exact ⟨ha, hp⟩
      | some v =>
        dsimp only
        split_ifs with h3
        · exact ⟨ha, hp⟩
        · exact ⟨ha, hp⟩

/-- The whole bar walk preserves alternation and the parity coupling. -/
theorem siggo_alt (ind : Indicators) (candles : List Candle) :
    ∀ (fuel i : ℕ) (st : SigState),
      IsAltSignals st.signals → st.position = st.signals.length % 2 →
      IsAltSignals (siggo ind candles fuel i st).signals ∧
        (siggo ind candles fuel i st).position =
          (siggo ind candles fuel i st).signals.length % 2
  | 0, _, _, ha, hp => ⟨ha, hp⟩
  | fuel + 1, i, st, ha, hp =>
    have h := stepBar_alt ind candles i st ha hp
    siggo_alt ind candles fuel (i + 1) _ h.1 h.2

/-- C1: every signal list emitted by `get_signals` strictly alternates, with
a BUY first (position `i` carries `altAction i`), and whenever the bar walk
ends still holding a position the last emitted signal is the forced SELL with
reason `'END'` at the last bar's close. -/
theorem get_signals_alternate (p : KParams) (rsqrt : ℚ → ℚ) (candles : List Candle) :
    IsAltSignals (get_signals p rsqrt candles)
    ∧ (warmup p + 1 ≤ candles.length →
        0 < (walk (calculateIndicators p rsqrt candles) candles (loopStart p)
          candles.length initSigState).position →
        (get_signals p rsqrt candles).getLast? =
          some (endSellSignal candles
            (walk (calculateIndicators p rsqrt candles) candles (loopStart p)
              candles.length initSigState).entry_price)) := by
  have hinv := siggo_alt (calculateIndicators p rsqrt candles) candles
    (candles.length - loopStart p) (loopStart p) initSigState isAltSignals_nil rfl
  constructor
  · unfold get_signals
    split_ifs with hg
    · exact isAltSignals_nil
    · unfold endClose
      split_ifs with hc
      · refine isAltSignals_append _ _ hinv.1 ?_
        have hp1 := hinv.2
        have hpos := hc.1
        have h1 : (walk (calculateIndicators p rsqrt candles) candles (loopStart p)
            candles.length initSigState).signals.length % 2 = 1 := by
          unfold walk at hpos ⊢
          omega
        unfold walk at h1 ⊢
        simp [endSellSignal, altAction, h1]
      · exact hinv.1
  · intro hg hpos
    have hg' : ¬(candles.length < warmup p + 1) := by omega
    unfold get_signals
    rw [if_neg hg']
    unfold endClose
    rw [if_pos ⟨hpos, by omega⟩]
    exact List.getLast?_concat _

/-- C1 witness: on `candles3` the walk ends long and the final signal of
`get_signals` is the forced `'END'` SELL at the last close `15`. -/
theorem get_signals_alternate_witness :
    (get_signals pOne rsqrt0 candles3).getLast? = some (endSellSignal candles3 15) := by
  have h := (get_signals_alternate pOne rsqrt0 candles3).2 (by decide)
    (by with_unfolding_all decide)
  exact h.trans (by with_unfolding_all decide)

/-! ### C2 : where the bar walk starts -/

/-- Before the ATR warm-up index the volatility-phase flag computed by
`calculate_indicators` is `false` (its ATR input is still `nan`). -/
theorem calcInd_in_vol_phase_false (p : KParams) (rsqrt : ℚ → ℚ) (candles : List Candle)
    (i : ℕ) (hi : i < p.atr_len) :
    (calculateIndicators p rsqrt candles).in_vol_phase i = false := by
  simp [calculateIndicators, atrOpt, hi]

/-- A bar whose volatility-phase flag is `false` cannot move the machine out
of the FLAT state, and leaves the state untouched. -/
theorem stepBar_skip (ind : Indicators) (candles : List Candle) (i : ℕ) (st : SigState)
    (h0 : st.position = 0) (hv : ind.in_vol_phase i = false) :
    stepBar ind candles i st = st := by
  unfold stepBar
  rw [if_pos h0]
  cases ind.entry_filter i with
  | none => rfl
  | some ef =>
    dsimp only
    rw [if_neg]
    rintro ⟨-, -, hvv, -⟩
    rw [hv] at hvv
    exact Bool.false_ne_true hvv

/-- Skipping `j` no-op iterations shifts the start of the walk. -/
theorem siggo_skip (ind : Indicators) (candles : List Candle) :
    ∀ (j lo m : ℕ) (st : SigState),
      (∀ k, k < j → stepBar ind candles (lo + k) st = st) →
      siggo ind candles (m + j) lo st = siggo ind candles m (lo + j) st := by
  intro j
  induction j with
  | zero => intro lo m st _; rfl
  | succ j ih =>
    intro lo m st h
    have e1 : siggo ind candles (m + (j + 1)) lo st =
        siggo ind candles (m + j) (lo + 1) (stepBar ind candles lo st) := by
      rw [show m + (j + 1) = (m + j) + 1 by omega]
      rfl
    have h0 := h 0 (by omega)
    rw [Nat.add_zero] at h0
    rw [e1, h0, ih (lo + 1) m st (fun k hk => by
      have hk1 := h (k + 1) (by omega)
      rwa [show lo + (k + 1) = lo + 1 + k by omega] at hk1)]
    rw [show lo + 1 + j = lo + (j + 1) by omega]

/-- C2 (amended): the bar walk of `get_signals` starts at
`max(kama_len, atr_phase_len)` — `atr_len` is not part of the start index —
but starting it at the full warm-up index `max(kama_len, atr_len,
atr_phase_len)` instead produces the identical final state: no bar before the
fully-warmed index can emit a signal, because its undefined ATR keeps the
volatility-phase entry filter false. -/
theorem walk_from_full_warmup (p : KParams) (rsqrt : ℚ → ℚ) (candles : List Candle) :
    walk (calculateIndicators p rsqrt candles) candles (loopStart p) candles.length initSigState
      = walk (calculateIndicators p rsqrt candles) candles (warmup p) candles.length
          initSigState := by
  have hlw : loopStart p ≤ warmup p :=
    max_le (le_trans (le_max_left _ _) (le_max_left _ _)) (le_max_right _ _)
  have hw : warmup p = max (loopStart p) p.atr_len := by
    unfold warmup loopStart
    rw [max_assoc, max_comm p.atr_len p.atr_phase_len, ← max_assoc]
  have hgap : ∀ k, k < warmup p - loopStart p → loopStart p + k < p.atr_len := by
    intro k hk
    have hlt : loopStart p < warmup p := by omega
    rcases max_cases (loopStart p) p.atr_len with ⟨h1, h2⟩ | ⟨h1, h2⟩ <;> omega
  have hsteps : ∀ k, k < warmup p - loopStart p →
      stepBar (calculateIndicators p rsqrt candles) candles (loopStart p + k) initSigState =
        initSigState := fun k hk =>
    stepBar_skip _ candles _ initSigState rfl
      (calcInd_in_vol_phase_false p rsqrt candles _ (hgap k hk))
  unfold walk
  rcases le_or_lt (warmup p) candles.length with hwn | hwn
  · rw [show candles.length - loopStart p =
        (candles.length - warmup p) + (warmup p - loopStart p) by omega]
    rw [siggo_skip _ candles (warmup p - loopStart p) (loopStart p)
      (candles.length - warmup p) initSigState hsteps]
    rw [show loopStart p + (warmup p - loopStart p) = warmup p by omega]
  · rw [show candles.length - warmup p = 0 by omega]
    have hsteps' : ∀ k, k < candles.length - loopStart p →
        stepBar (calculateIndicators p rsqrt candles) candles (loopStart p + k) initSigState =
          initSigState := fun k hk => hsteps k (by omega)
    have hskip := siggo_skip _ candles (candles.length - loopStart p) (loopStart p) 0
      initSigState hsteps'
    rw [show 0 + (candles.length - loopStart p) = candles.length - loopStart p by omega] at hskip
    rw [hskip]
    rfl

/-- C2 counterexample: with `atr_len` strictly largest, the walk's start
index `max(kama_len, atr_phase_len)` is not the full warm-up index
`max(kama_len, atr_len, atr_phase_len)`. -/
theorem walk_start_omits_atr_len :
    loopStart pGap = 1 ∧ warmup pGap = 5 ∧ loopStart pGap ≠ warmup pGap := by decide

/-! ### C6 : the trailing stop never moves down while LONG -/

/-- C6: from a LONG state, if the bar does not exit the position then the
trailing stop is non-decreasing; it changes only by being replaced with the
bar's computed stop level when that level is defined and strictly higher. -/
theorem trailing_stop_monotone (ind : Indicators) (candles : List Candle) (i : ℕ)
    (st : SigState) (hpos : st.position ≠ 0)
    (hstay : (stepBar ind candles i st).position ≠ 0) :
    st.sl_level ≤ (stepBar ind candles i st).sl_level
    ∧ ((stepBar ind candles i st).sl_level = st.sl_level
       ∨ ∃ v, ind.sl_level i = some v ∧ st.sl_level < v
           ∧ (stepBar ind candles i st).sl_level = v) := by
  unfold stepBar at hstay ⊢
  rw [if_neg hpos] at hstay ⊢
  split_ifs at hstay ⊢ with h1 h2
  · exact absurd rfl hstay
  · exact absurd rfl hstay
  · cases hsl : ind.sl_level i with
    | none => exact ⟨le_refl _, Or.inl rfl⟩
    | some v =>
      dsimp only
      split_ifs with h3
      · exact ⟨le_of_lt h3, Or.inr ⟨v, rfl, h3, rfl⟩⟩
      · exact ⟨le_refl _, Or.inl rfl⟩

/-- A constant indicator bundle for the trailing-stop witness: no exit fires
at bar 0 and the computed stop level `12` exceeds the current stop `10`. -/
def indC6 : Indicators :=
  { kama := fun _ => 0, kama_delta := fun _ => 0, atr := fun _ => some 1,
    atr_sma := fun _ => some 1, in_vol_phase := fun _ => false,
    is_bull_strong := fun _ => false, entry_filter := fun _ => none,
    exit_filter := fun _ => none, sl_level := fun _ => some 12,
    closes := fun _ => 20, highs := fun _ => 21, lows := fun _ => 20,
    opens := fun _ => 19 }

/-- A LONG state holding entry 15 with trailing stop 10. -/
def stC6 : SigState := ⟨[], 1, 15, 10⟩

/-- C6 witness: at `indC6` the stop ratchets from 10 up to the computed
level 12 and in particular does not decrease. -/
theorem trailing_stop_monotone_witness :
    stC6.sl_level ≤ (stepBar indC6 [] 0 stC6).sl_level ∧
      (stepBar indC6 [] 0 stC6).sl_level = 12 :=
  ⟨(trailing_stop_monotone indC6 [] 0 stC6 (by decide)
      (by with_unfolding_all decide)).1,
    by with_unfolding_all decide⟩

/-! ### C9 : equity points are marked to the final candle's close -/

/-- Processing a signal leaves the `equity_curve` untouched until the append
at the end of the iteration. -/
theorem coreStep_equity (c : ℚ) (u : Bool) (pc : ℚ) (s : Signal) (st : BTState) :
    (coreStep c u pc s st).equity = st.equity := by
  simp only [coreStep]
  cases s.action <;> dsimp only <;> split_ifs <;> rfl

/-- The signal loop only ever appends to the equity curve. -/
theorem btRun_equity_prefix (candles : List Candle) (c : ℚ) (u : Bool) (pc : ℚ) :
    ∀ (l : List Signal) (st : BTState), ∃ rest,
      (btRun candles c u pc l st).equity = st.equity ++ rest := by
  intro l
  induction l with
  | nil => exact fun st => ⟨[], by simp [btRun]⟩
  | cons s ls ih =>
    intro st
    obtain ⟨rest, hr⟩ := ih (btStep candles c u pc s st)
    refine ⟨equityOf candles (coreStep c u pc s st) :: rest, ?_⟩
    have hrun : btRun candles c u pc (s :: ls) st
        = btRun candles c u pc ls (btStep candles c u pc s st) := rfl
    rw [hrun, hr]
    simp [btStep, pushEquity, coreStep_equity]

/-- The equity entry at offset `k` past the inherited curve is the
mark-to-market value of the state reached after the first `k + 1` signals. -/
theorem btRun_equity_get (candles : List Candle) (c : ℚ) (u : Bool) (pc : ℚ) :
    ∀ (l : List Signal) (st : BTState) (k : ℕ), k < l.length →
      (btRun candles c u pc l st).equity.get? (st.equity.length + k)
        = some (equityOf candles (btRun candles c u pc (l.take (k + 1)) st)) := by
  intro l
  induction l with
  | nil => exact fun st k hk => absurd hk (by simp)
  | cons s ls ih =>
    intro st k hk
    have hrun : btRun candles c u pc (s :: ls) st
        = btRun candles c u pc ls (btStep candles c u pc s st) := rfl
    have hsteq : (btStep candles c u pc s st).equity
        = st.equity ++ [equityOf candles (coreStep c u pc s st)] := by
      simp [btStep, pushEquity, coreStep_equity]
    cases k with
    | zero =>
      obtain ⟨rest, hr⟩ := btRun_equity_prefix candles c u pc ls (btStep candles c u pc s st)
      rw [hrun, hr, hsteq, List.append_assoc,
        List.get?_append_right (by omega)]
      simp only [Nat.add_zero, Nat.sub_self, List.singleton_append, List.get?_cons_zero]
      rfl
    | succ k =>
      have hlen : (btStep candles c u pc s st).equity.length = st.equity.length + 1 := by
        rw [hsteq]
        simp
      have h := ih (btStep candles c u pc s st) k (by simpa using hk)
      rw [hlen] at h
      rw [hrun, show st.equity.length + (k + 1) = st.equity.length + 1 + k by omega]
      exact h

/-- C9: the equity point recorded after processing the `k`-th signal equals
the mark-to-market value of the state reached at that point — the cash
balance when flat, and `balance + position * candles[-1].close` when a
position is open, using the close of the final candle of the whole input
series for every signal alike (see `equityOf`). -/
theorem backtest_equity_marks_last_close (candles : List Candle) (commission : ℚ)
    (usePct : Bool) (pct : ℚ) (signals : List Signal) (initial : ℚ) (k : ℕ)
    (hk : k < signals.length) :
    (btRun candles commission usePct pct signals (initBTState initial)).equity.get? (k + 1)
      = some (equityOf candles
          (btRun candles commission usePct pct (signals.take (k + 1))
            (initBTState initial))) := by
  have h := btRun_equity_get candles commission usePct pct signals (initBTState initial) k hk
  rw [show (initBTState initial).equity.length = 1 from rfl,
    show 1 + k = k + 1 by omega] at h
  exact h

/-- A single candle closing at `7`. -/
def candlesW : List Candle := [⟨0, 1, 1, 1, 7, 0⟩]

/-- A BUY signal at price `10`. -/
def sigBuy : Signal := ⟨.BUY, 10, 0, none, none, none, none, none, none⟩

/-- C9 witness: buying 10 shares at price 10 with balance 100 leaves cash 0,
and the recorded equity point is `0 + 10 * 7 = 70` — marked at the final
candle's close `7`, not at the signal's own price. -/
theorem backtest_equity_witness :
    (btRun candlesW 0 true 100 [sigBuy] (initBTState 100)).equity.get? 1 = some 70 := by
  have h := backtest_equity_marks_last_close candlesW 0 true 100 [sigBuy] 100 0 (by decide)
  exact h.trans (by with_unfolding_all decide)

/-! ### C10 : the cash balance never goes negative -/

/-- One processed signal keeps the balance and position non-negative: a BUY
fills only when its notional plus commission fits in the balance, and a SELL
credits `revenue * (1 - commission/100) ≥ 0`. -/
theorem coreStep_nonneg (c : ℚ) (u : Bool) (pc : ℚ) (s : Signal) (st : BTState)
    (hc0 : 0 ≤ c) (hc1 : c ≤ 100) (hsp : 0 ≤ s.price)
    (hb : 0 ≤ st.balance) (hp : 0 ≤ st.position) :
    0 ≤ (coreStep c u pc s st).balance ∧ 0 ≤ (coreStep c u pc s st).position := by
  simp only [coreStep]
  cases s.action with
  | BUY =>
    dsimp only
    split_ifs <;>
      first
      | exact ⟨hb, hp⟩
      | exact ⟨by dsimp only; linarith, by dsimp only; omega⟩
  | SELL =>
    dsimp only
    split_ifs with h1
    · constructor
      · dsimp only
        have hposq : (0 : ℚ) ≤ (st.position : ℚ) := by exact_mod_cast hp
        have hrev : 0 ≤ (st.position : ℚ) * s.price := mul_nonneg hposq hsp
        have hcomm : (st.position : ℚ) * s.price * (c / 100) ≤ (st.position : ℚ) * s.price := by
          calc (st.position : ℚ) * s.price * (c / 100)
              ≤ (st.position : ℚ) * s.price * 1 :=
                mul_le_mul_of_nonneg_left (by linarith) hrev
            _ = (st.position : ℚ) * s.price := mul_one _
        linarith
      · dsimp only
        omega
    · exact ⟨hb, hp⟩

/-- The whole signal loop keeps the balance and position non-negative. -/
theorem btRun_nonneg (candles : List Candle) (c : ℚ) (u : Bool) (pc : ℚ)
    (hc0 : 0 ≤ c) (hc1 : c ≤ 100) :
    ∀ (l : List Signal) (st : BTState), (∀ s ∈ l, 0 ≤ s.price) →
      0 ≤ st.balance → 0 ≤ st.position →
      0 ≤ (btRun candles c u pc l st).balance ∧ 0 ≤ (btRun candles c u pc l st).position := by
  intro l
  induction l with
  | nil => exact fun st _ hb hp => ⟨hb, hp⟩
  | cons s ls ih =>
    intro st hall hb hp
    have hs := coreStep_nonneg c u pc s st hc0 hc1 (hall s (List.mem_cons_self s ls)) hb hp
    exact ih (btStep candles c u pc s st)
      (fun s' hs' => hall s' (List.mem_cons_of_mem s hs')) hs.1 hs.2

/-- The close of the last candle is non-negative when every close is. -/
theorem lastCloseD_nonneg (candles : List Candle)
    (h : ∀ cd ∈ candles, 0 ≤ cd.close) : 0 ≤ lastCloseD candles := by
  unfold lastCloseD
  cases hl : candles.getLast? with
  | none => simp
  | some cd =>
    simpa using h cd (List.mem_of_getLast?_eq_some hl)

/-- The end-of-run close-out also keeps the balance non-negative. -/
theorem forceClose_nonneg (candles : List Candle) (c : ℚ) (st : BTState)
    (hc0 : 0 ≤ c) (hc1 : c ≤ 100) (hcl : ∀ cd ∈ candles, 0 ≤ cd.close)
    (hb : 0 ≤ st.balance) (hp : 0 ≤ st.position) :
    0 ≤ (forceClose candles c st).balance := by
  simp only [forceClose]
  split_ifs with h1
  · dsimp only
    have hposq : (0 : ℚ) ≤ (st.position : ℚ) := by exact_mod_cast hp
    have hrev : 0 ≤ (st.position : ℚ) * lastCloseD candles :=
      mul_nonneg hposq (lastCloseD_nonneg candles hcl)
    have hcomm : (st.position : ℚ) * lastCloseD candles * (c / 100)
        ≤ (st.position : ℚ) * lastCloseD candles := by
      calc (st.position : ℚ) * lastCloseD candles * (c / 100)
          ≤ (st.position : ℚ) * lastCloseD candles * 1 :=
            mul_le_mul_of_nonneg_left (by linarith) hrev
        _ = (st.position : ℚ) * lastCloseD candles := mul_one _
    linarith
  · exact hb

/-- C10: with a non-negative starting balance, non-negative signal and candle
prices, and a commission rate in `[0, 100]`, the cash balance of
`backtest_strategy`'s simulation loop is non-negative after every processed
signal, and stays non-negative through the final close-out. -/
theorem backtest_balance_nonneg (candles : List Candle) (commission : ℚ)
    (usePct : Bool) (pct : ℚ) (signals : List Signal) (initial : ℚ)
    (hinit : 0 ≤ initial) (hc0 : 0 ≤ commission) (hc1 : commission ≤ 100)
    (hprices : ∀ s ∈ signals, 0 ≤ s.price)
    (hcloses : ∀ cd ∈ candles, 0 ≤ cd.close) :
    (∀ k : ℕ, 0 ≤ (btRun candles commission usePct pct (signals.take k)
        (initBTState initial)).balance)
    ∧ 0 ≤ (forceClose candles commission
        (btRun candles commission usePct pct signals (initBTState initial))).balance := by
  constructor
  · intro k
    exact (btRun_nonneg candles commission usePct pct hc0 hc1 (signals.take k)
      (initBTState initial)
      (fun s hs => hprices s (List.take_subset k signals hs)) hinit (by norm_num [initBTState])).1
  · have h := btRun_nonneg candles commission usePct pct hc0 hc1 signals
      (initBTState initial) hprices hinit (by norm_num [initBTState])
    exact forceClose_nonneg candles commission _ hc0 hc1 hcloses h.1 h.2

/-- C10 witness: with commission 5% the BUY of 10 shares at price 10 does not
fit in balance 100 (`100 + 5 > 100`), the signal is skipped and the balance
stays at `100 ≥ 0`. -/
theorem backtest_balance_nonneg_witness :
    0 ≤ (btRun candlesW 5 true 100 ([sigBuy].take 1) (initBTState 100)).balance ∧
      (btRun candlesW 5 true 100 [sigBuy] (initBTState 100)).balance = 100 :=
  ⟨(backtest_balance_nonneg candlesW 5 true 100 [sigBuy] 100 (by norm_num)
      (by norm_num) (by norm_num)
      (by
        intro s hs
        rw [List.mem_singleton] at hs
        subst hs
        show (0 : ℚ) ≤ 10
        norm_num)
      (by
        intro cd hcd
        simp only [candlesW, List.mem_singleton] at hcd
        subst hcd
        show (0 : ℚ) ≤ 7
        norm_num)).1 1,
    by with_unfolding_all decide⟩

/-! ### C3 : a zero-profit trade is counted in neither bucket -/

/-- C3: on `candles3` the single completed trade has profit exactly `0`;
`backtest_strategy` reports `total_trades = 1` but `winning_trades = 0` and
`losing_trades = 0` — the Python truthiness guard `t.profit and …` drops the
zero-profit trade from both filters, so the claimed tie-counts-as-losing rule
(and `winning + losing = total`) fails here. -/
theorem zero_profit_trade_uncounted :
    (backtest_strategy candles3 pOne rsqrt0 100000 0 true 100).total_trades = 1
    ∧ (backtest_strategy candles3 pOne rsqrt0 100000 0 true 100).winning_trades = 0
    ∧ (backtest_strategy candles3 pOne rsqrt0 100000 0 true 100).losing_trades = 0
    ∧ ((backtest_strategy candles3 pOne rsqrt0 100000 0 true 100).trades.map
        TradeRec.profit) = [some 0] := by
  with_unfolding_all decide

end KamaSpec
